import Mathlib

/-!
Shallow embedding of the BlockDrive client (src/client/src/App.js,
src/client/src/components/FileUpload.js, src/client/src/components/Display.js).
JavaScript strings are modelled as Lean String values; the JS string
operations used by the code (startsWith, substring, trim-emptiness) are
modelled on the underlying character list so that concrete instances
evaluate in the kernel.  Asynchronous handlers are modelled as functions
from their environment (outcomes of the awaited wallet, pinning and
contract calls) to the ordered list of observable events they perform.
-/

namespace BlockDrive

/-- Model of the JS s.startsWith(p) on character lists. -/
def jsStartsWith (s p : String) : Bool :=
  p.data.isPrefixOf s.data

/-- Model of the JS s.substring(n) (drop the first n code units). -/
def jsDrop (s : String) (n : Nat) : String :=
  String.mk (s.data.drop n)

/-- Model of the JS emptiness test !s.trim(): true when every character is whitespace. -/
def isBlankStr (s : String) : Bool :=
  s.data.all (fun c => c = ' ' || c = '\t' || c = '\n' || c = '\r')

/-- Gateway base URL used throughout Display.js and FileUpload.js. -/
def gatewayBase : String := "https://gateway.pinata.cloud/ipfs/"

/-- Off-chain scheme marker checked in Display.js. -/
def ipfsMarker : String := "ipfs://"

/-- Content-address normalization from Display.js getdata (lines 130-145):
pass through full gateway URLs, strip the ipfs marker and prepend the
gateway, otherwise prepend the gateway to the bare identifier. -/
def normalizeLocator (item : String) : String :=
  if jsStartsWith item gatewayBase then item
  else if jsStartsWith item ipfsMarker then gatewayBase ++ jsDrop item 7
  else gatewayBase ++ item

/-! App.js: network configuration and ensureCorrectNetwork. -/

/-- Expected chain identifier (App.js line 11). -/
def HARDHAT_CHAIN_ID : String := "0x539"

/-- Network descriptor passed to the add-network request (App.js lines 13-23). -/
structure NetworkConfig where
  chainId : String
  chainName : String
  currencyName : String
  currencySymbol : String
  currencyDecimals : Nat
  rpcUrls : List String
deriving Repr, DecidableEq

/-- The HARDHAT_NETWORK_CONFIG literal of App.js. -/
def HARDHAT_NETWORK_CONFIG : NetworkConfig :=
  { chainId := "0x539"
    chainName := "Hardhat Local"
    currencyName := "Ethereum"
    currencySymbol := "ETH"
    currencyDecimals := 18
    rpcUrls := ["http://127.0.0.1:8545"] }

/-- Requests ensureCorrectNetwork can issue to the wallet provider. -/
inductive WalletRequest where
  | ethChainId
  | switchChain (chainId : String)
  | addChain (cfg : NetworkConfig)
deriving Repr, DecidableEq

/-- Outcome of ensureCorrectNetwork: resolve normally or throw the
"Failed to switch to Hardhat network" error. -/
inductive EnsureOutcome where
  | ok
  | failed
deriving Repr, DecidableEq

/-- Wallet behaviour observed by one ensureCorrectNetwork run: the reported
chain id, and the error codes (if any) with which the switch-network and
add-network requests reject. -/
structure WalletBehavior where
  chainId : String
  switchErr : Option Int
  addErr : Option Int
deriving Repr, DecidableEq

/-- Tests whether a request is a switch-network request. -/
def isSwitchChainEv : WalletRequest → Bool
  | WalletRequest.switchChain _ => true
  | _ => false

/-- Tests whether a request is an add-network request. -/
def isAddChainEv : WalletRequest → Bool
  | WalletRequest.addChain _ => true
  | _ => false

/-- Embedding of ensureCorrectNetwork (App.js lines 168-195): query the chain
id; on mismatch issue a switch request; if that rejects with code 4902 issue
an add-network request with HARDHAT_NETWORK_CONFIG; any other rejection is
rethrown as a failure.  Returns the ordered request list and the outcome. -/
def ensureCorrectNetwork (w : WalletBehavior) : List WalletRequest × EnsureOutcome :=
  if w.chainId = HARDHAT_CHAIN_ID then
    ([WalletRequest.ethChainId], EnsureOutcome.ok)
  else
    match w.switchErr with
    | none =>
        ([WalletRequest.ethChainId, WalletRequest.switchChain HARDHAT_CHAIN_ID], EnsureOutcome.ok)
    | some code =>
        if code = 4902 then
          match w.addErr with
          | none =>
              ([WalletRequest.ethChainId, WalletRequest.switchChain HARDHAT_CHAIN_ID,
                WalletRequest.addChain HARDHAT_NETWORK_CONFIG], EnsureOutcome.ok)
          | some _ =>
              ([WalletRequest.ethChainId, WalletRequest.switchChain HARDHAT_CHAIN_ID,
                WalletRequest.addChain HARDHAT_NETWORK_CONFIG], EnsureOutcome.failed)
        else
          ([WalletRequest.ethChainId, WalletRequest.switchChain HARDHAT_CHAIN_ID],
           EnsureOutcome.failed)

/-! App.js: initializeProvider. -/

/-- React state fields of App touched by initializeProvider.  Contract and
provider objects are modelled as opaque numeric handles. -/
structure AppState where
  account : String
  contract : Option Nat
  provider : Option Nat
  wrongNetwork : Bool
  connectionError : String
deriving Repr, DecidableEq

/-- Where, if anywhere, the awaited calls inside initializeProvider throw:
getNetwork (before any state update) or getSigner / contract construction
(after provider and account have been set on the correct network). -/
inductive InitFailure where
  | noFailure
  | atGetNetwork
  | atGetSigner
deriving Repr, DecidableEq

/-- Error message set by the catch block of initializeProvider. -/
def initErrorMsg : String := "Failed to initialize blockchain connection"

/-- Embedding of initializeProvider (App.js lines 95-124): observe the
network; when the chain id differs from 1337 set the wrong-network flag and
the account and return early; otherwise clear the flag, store the provider,
then build and store the contract.  A throw anywhere lands in the catch
block which only sets connectionError. -/
def initializeProvider (st : AppState) (userAccount : String) (chainId : Nat)
    (fail : InitFailure) (newProv newContr : Nat) : AppState :=
  match fail with
  | InitFailure.atGetNetwork => { st with connectionError := initErrorMsg }
  | f =>
      if chainId ≠ 1337 then
        { st with wrongNetwork := true, account := userAccount }
      else
        let st1 := { st with wrongNetwork := false, account := userAccount,
                             provider := some newProv }
        match f with
        | InitFailure.atGetSigner => { st1 with connectionError := initErrorMsg }
        | _ => { st1 with contract := some newContr }

/-! FileUpload.js: selection validation and handleSubmit. -/

/-- The selected file as seen by FileUpload: declared media type, byte
length and display name. -/
structure SelectedFile where
  type : String
  size : Nat
  name : String
deriving Repr, DecidableEq

/-- Allowed media types (FileUpload.js line 96). -/
def allowedTypes : List String := ["image/jpeg", "image/png", "image/gif", "image/webp"]

/-- Size ceiling in bytes (FileUpload.js line 103). -/
def maxSize : Nat := 10 * 1024 * 1024

/-- Validation message for a disallowed media type. -/
def invalidTypeMsg : String := "Please select a valid image file (JPEG, PNG, GIF, WebP)"

/-- Validation message for an oversized file. -/
def tooLargeMsg : String := "File size must be less than 10MB"

/-- Selection-related state of FileUpload. -/
structure SelectionState where
  file : Option SelectedFile
  fileName : String
  error : String
deriving Repr, DecidableEq

/-- Embedding of handleFileSelection (FileUpload.js lines 94-112): reject a
disallowed type or an oversized file with an error message, leaving the
previously selected file untouched; otherwise record the file and clear the
error. -/
def handleFileSelection (st : SelectionState) (f : SelectedFile) : SelectionState :=
  if (allowedTypes.contains f.type) = false then
    { st with error := invalidTypeMsg }
  else if maxSize < f.size then
    { st with error := tooLargeMsg }
  else
    { file := some f, fileName := f.name, error := "" }

/-- Observable events performed by the handlers of FileUpload.js and
Display.js, in program order: state setters, the pinning HTTP request, the
contract calls, the transaction-confirmation wait and (never issued by this
code) an un-pin request. -/
inductive Ev where
  | setProgress (p : Nat)
  | setError (msg : String)
  | setSuccess (msg : String)
  | pinRequest
  | contractAdd (owner : String) (locator : String)
  | contractAllow (grantee : String)
  | contractDisallow (grantee : String)
  | txWait
  | unpinRequest
  | shareAccessCall
deriving Repr, DecidableEq

/-- One tick of the simulated-progress interval (FileUpload.js lines 33-41):
cap at 90, otherwise advance by 10. -/
def tickNext (p : Nat) : Nat :=
  if 90 ≤ p then 90 else p + 10

/-- Progress values produced by n interval ticks starting from p. -/
def tickValues : Nat → Nat → List Nat
  | 0, _ => []
  | Nat.succ n, p => tickNext p :: tickValues n (tickNext p)

/-- Environment of one handleSubmit run: whether contract and account props
are present, how many interval ticks fire while the pinning call is awaited,
the pinning outcome (the returned IpfsHash, or none on failure), and whether
the awaited contract.add call resolves. -/
structure UploadEnv where
  hasContract : Bool
  hasAccount : Bool
  ticks : Nat
  pinResult : Option String
  addOk : Bool
deriving Repr, DecidableEq

/-- Error message of the catch block of handleSubmit. -/
def uploadFailedMsg : String :=
  "Failed to upload file. Please check your connection and try again."

/-- Success message of handleSubmit. -/
def uploadSuccessMsg : String := "File uploaded successfully to blockchain!"

/-- Error message when submitting with no file selected. -/
def noFileMsg : String := "Please select a file first"

/-- Embedding of handleSubmit (FileUpload.js lines 16-85) as the ordered
list of events of one run.  With no file selected it only sets an error.
Otherwise it clears error/success, zeroes the progress, issues the pinning
request (interval ticks firing during the await), and on pinning success
sets progress 95, builds the gateway URL from the returned hash and calls
contract.add with it; a resolved add sets progress 100 and the success
message, any throw lands in the catch block which sets the generic failure
message and resets the progress to 0. -/
def handleSubmit (file : Option SelectedFile) (account : String) (env : UploadEnv) : List Ev :=
  match file with
  | none => [Ev.setError noFileMsg]
  | some _ =>
      let start : List Ev := [Ev.setError "", Ev.setSuccess "", Ev.setProgress 0, Ev.pinRequest]
      let tickEvs : List Ev := (tickValues env.ticks 0).map Ev.setProgress
      match env.pinResult with
      | none =>
          start ++ tickEvs ++ [Ev.setError uploadFailedMsg, Ev.setProgress 0]
      | some hash =>
          let imgHash := gatewayBase ++ hash
          let afterPin := start ++ tickEvs ++ [Ev.setProgress 95]
          if env.hasContract && env.hasAccount then
            if env.addOk then
              afterPin ++ [Ev.contractAdd account imgHash, Ev.setProgress 100,
                           Ev.setSuccess uploadSuccessMsg]
            else
              afterPin ++ [Ev.contractAdd account imgHash, Ev.setError uploadFailedMsg,
                           Ev.setProgress 0]
          else
            afterPin ++ [Ev.setError uploadFailedMsg, Ev.setProgress 0]

/-! Display.js: getdata, shareAccess, revokeAccess. -/

/-- Outcome of the awaited contract.display call: it throws (the registry
denies the caller read access) or returns a list of stored locators. -/
inductive DisplayCall where
  | throws
  | returns (items : List String)
deriving Repr, DecidableEq

/-- Display state fields touched by getdata. -/
structure DisplayState where
  data : List String
  error : String
  currentViewingAddress : String
deriving Repr, DecidableEq

/-- Message set by getdata when the returned list is empty. -/
def noFilesMsg : String := "No files found for this address"

/-- Message set by the catch block of getdata. -/
def unauthorizedMsg : String := "You don\x27t have access to view files from this address"

/-- Embedding of getdata (Display.js lines 103-166) for a present contract
and a nonempty target address: clear the error, call contract.display; a
throw sets the access-denied message and clears the data; an empty result
clears the data, sets the no-files message and records the viewing address;
a nonempty result stores the normalized URLs and records the viewing
address. -/
def getdata (st : DisplayState) (target : String) (call : DisplayCall) : DisplayState :=
  match call with
  | DisplayCall.throws =>
      { st with error := unauthorizedMsg, data := [] }
  | DisplayCall.returns items =>
      if items.isEmpty then
        { st with data := [], error := noFilesMsg, currentViewingAddress := target }
      else
        { st with data := items.map normalizeLocator, error := "",
                  currentViewingAddress := target }

/-- Outcome of one mutating contract call in Display.js: the transaction is
submitted and its confirmation wait resolves, the submission itself rejects,
or the submission resolves but the wait rejects. -/
inductive TxOutcome where
  | confirmed
  | submitFailed
  | waitFailed
deriving Repr, DecidableEq

/-- Error message when contract or account props are missing. -/
def contractNotAvailableMsg : String := "Contract not available"

/-- Error message for a blank target address in shareAccess. -/
def emptyAddressMsg : String := "Please enter a valid address"

/-- Error message of the catch block of shareAccess. -/
def shareFailedMsg : String := "Failed to share access. Please try again."

/-- Error message of the catch block of revokeAccess. -/
def revokeFailedMsg : String := "Failed to revoke access. Please try again."

/-- Embedding of shareAccess (Display.js lines 43-77): guard on contract and
account, reject a blank address, then call contract.allow, await the
transaction confirmation, and only past it set the success message and
reload the share-access list. -/
def shareAccess (hasContract hasAccount : Bool) (targetAddress : String)
    (out : TxOutcome) : List Ev :=
  if (hasContract && hasAccount) = false then
    [Ev.setError contractNotAvailableMsg]
  else if isBlankStr targetAddress then
    [Ev.setError emptyAddressMsg]
  else
    Ev.setError "" ::
    match out with
    | TxOutcome.submitFailed =>
        [Ev.contractAllow targetAddress, Ev.setError shareFailedMsg]
    | TxOutcome.waitFailed =>
        [Ev.contractAllow targetAddress, Ev.txWait, Ev.setError shareFailedMsg]
    | TxOutcome.confirmed =>
        [Ev.contractAllow targetAddress, Ev.txWait,
         Ev.setSuccess ("Successfully shared access with " ++ targetAddress),
         Ev.shareAccessCall]

/-- Embedding of revokeAccess (Display.js lines 79-101): guard on contract
and account, call contract.disallow, await the transaction confirmation, and
only past it set the success message and reload the share-access list. -/
def revokeAccess (hasContract hasAccount : Bool) (targetAddress : String)
    (out : TxOutcome) : List Ev :=
  if (hasContract && hasAccount) = false then
    [Ev.setError contractNotAvailableMsg]
  else
    match out with
    | TxOutcome.submitFailed =>
        [Ev.contractDisallow targetAddress, Ev.setError revokeFailedMsg]
    | TxOutcome.waitFailed =>
        [Ev.contractDisallow targetAddress, Ev.txWait, Ev.setError revokeFailedMsg]
    | TxOutcome.confirmed =>
        [Ev.contractDisallow targetAddress, Ev.txWait,
         Ev.setSuccess ("Successfully revoked access for " ++ targetAddress),
         Ev.shareAccessCall]

/-! Trace helpers. -/

/-- Tests whether an event is a network call (pinning request or registry
contract call). -/
def isNetworkEv : Ev → Bool
  | Ev.pinRequest => true
  | Ev.contractAdd _ _ => true
  | Ev.contractAllow _ => true
  | Ev.contractDisallow _ => true
  | _ => false

/-- Number of network calls in a trace. -/
def networkCalls (t : List Ev) : Nat := t.countP isNetworkEv

/-- Tests whether an event is the contract.add registry call. -/
def isAddEv : Ev → Bool
  | Ev.contractAdd _ _ => true
  | _ => false

/-- Tests whether an event is the un-pin request. -/
def isUnpinEv : Ev → Bool
  | Ev.unpinRequest => true
  | _ => false

/-- Tests whether an event is a transaction-confirmation wait. -/
def isWaitEv : Ev → Bool
  | Ev.txWait => true
  | _ => false

/-- Tests whether an event is a success-message report. -/
def isSuccessEv : Ev → Bool
  | Ev.setSuccess _ => true
  | _ => false

/-- Progress values reported along a trace, in order. -/
def progressValues (t : List Ev) : List Nat :=
  t.filterMap (fun e =>
    match e with
    | Ev.setProgress p => some p
    | _ => none)

/-- Portion of a trace strictly before the first contract.add call. -/
def beforeAdd (t : List Ev) : List Ev :=
  t.takeWhile (fun e => !(isAddEv e))

/-- True when no success message is reported before the first
transaction-confirmation wait of the trace. -/
def successAfterWait (t : List Ev) : Bool :=
  (t.takeWhile (fun e => !(isWaitEv e))).all (fun e => !(isSuccessEv e))

/-- A list of naturals is nondecreasing. -/
def nondecr : List Nat → Bool
  | [] => true
  | [_] => true
  | a :: b :: t => decide (a ≤ b) && nondecr (b :: t)

/-- Occurrence test on character lists: pat occurs contiguously in s. -/
def occursIn : List Char → List Char → Bool
  | [], pat => pat.isEmpty
  | a :: t, pat => pat.isPrefixOf (a :: t) || occursIn t pat

/-- Substring test: pat occurs somewhere in s. -/
def containsStr (s pat : String) : Bool :=
  occursIn s.data pat.data

/-- True when some reported error or success message of the trace carries
the given locator as a substring. -/
def reportsLocator (t : List Ev) (loc : String) : Bool :=
  t.any (fun e =>
    match e with
    | Ev.setError m => containsStr m loc
    | Ev.setSuccess m => containsStr m loc
    | _ => false)

/-! App.js: connectWallet as a cooperative two-process system. -/

/-- Program counter of one connectWallet invocation: not yet started; the
eth_requestAccounts prompt issued and outstanding; response received and the
rest of the handler (network check, provider init) running; finished (the
finally block has cleared the flag); or returned early because a connect was
already in flight. -/
inductive ConnPC where
  | notStarted
  | outstanding
  | working
  | finished
  | coalesced
deriving Repr, DecidableEq

/-- Small-step semantics of one connectWallet invocation over the shared
isConnecting flag (App.js lines 126-166).  The guard check and the setting
of the flag form one atomic block: no await separates them in the code. -/
inductive ProcStep : Bool → ConnPC → Bool → ConnPC → Prop where
  | coalesce : ProcStep true ConnPC.notStarted true ConnPC.coalesced
  | launch : ProcStep false ConnPC.notStarted true ConnPC.outstanding
  | respond (b : Bool) : ProcStep b ConnPC.outstanding b ConnPC.working
  | finish (b : Bool) : ProcStep b ConnPC.working false ConnPC.finished

/-- Global state: the shared isConnecting flag and two invocations. -/
structure ConnSystem where
  isConnecting : Bool
  pc0 : ConnPC
  pc1 : ConnPC
deriving Repr, DecidableEq

/-- Interleaving step: either invocation takes one atomic step. -/
inductive ConnStep : ConnSystem → ConnSystem → Prop where
  | left (b b2 : Bool) (p p2 q : ConnPC) :
      ProcStep b p b2 p2 → ConnStep ⟨b, p, q⟩ ⟨b2, p2, q⟩
  | right (b b2 : Bool) (p q q2 : ConnPC) :
      ProcStep b q b2 q2 → ConnStep ⟨b, p, q⟩ ⟨b2, p, q2⟩

/-- Initial state: flag clear, neither invocation started. -/
def connInit : ConnSystem :=
  ⟨false, ConnPC.notStarted, ConnPC.notStarted⟩

/-- States reachable from the initial state by interleaved steps. -/
inductive ConnReachable : ConnSystem → Prop where
  | init : ConnReachable connInit
  | step {s s2 : ConnSystem} : ConnReachable s → ConnStep s s2 → ConnReachable s2

/-- An invocation is active while its prompt is outstanding or its
post-response work is running. -/
def activeB : ConnPC → Bool
  | ConnPC.outstanding => true
  | ConnPC.working => true
  | _ => false

/-- Number of active invocations. -/
def countActive (s : ConnSystem) : Nat :=
  (if activeB s.pc0 then 1 else 0) + (if activeB s.pc1 then 1 else 0)

/-- Flag-activity invariant of the connectWallet system. -/
def connInv (s : ConnSystem) : Prop :=
  countActive s = if s.isConnecting then 1 else 0

/-! Theorems. -/

/-- C5: content-address normalization follows the three-way rule of
Display.js (gateway URLs pass through, the ipfs marker is stripped and the
gateway base prepended, bare identifiers get the gateway base prepended; it
is a total Lean function, hence deterministic and non-throwing), and the
three inputs ipfs-scheme QmX, bare QmX and the full gateway URL for QmX all
normalize to the same fetch location. -/
theorem normalizeLocator_spec :
    (∀ s, jsStartsWith s gatewayBase = true → normalizeLocator s = s) ∧
    (∀ s, jsStartsWith s gatewayBase = false → jsStartsWith s ipfsMarker = true →
      normalizeLocator s = gatewayBase ++ jsDrop s 7) ∧
    (∀ s, jsStartsWith s gatewayBase = false → jsStartsWith s ipfsMarker = false →
      normalizeLocator s = gatewayBase ++ s) ∧
    normalizeLocator "ipfs://QmX" = normalizeLocator "QmX" ∧
    normalizeLocator (gatewayBase ++ "QmX") = normalizeLocator "QmX" := by
  refine ⟨fun s h => ?_, fun s h1 h2 => ?_, fun s h1 h2 => ?_, by decide, by decide⟩
  · simp [normalizeLocator, h]
  · simp [normalizeLocator, h1, h2]
  · simp [normalizeLocator, h1, h2]

/-- Witness for C5 at the concrete full gateway URL for QmX. -/
theorem normalizeLocator_spec_witness :
    jsStartsWith "https://gateway.pinata.cloud/ipfs/QmX" gatewayBase = true ∧
    normalizeLocator "https://gateway.pinata.cloud/ipfs/QmX" =
      "https://gateway.pinata.cloud/ipfs/QmX" :=
  ⟨by decide, normalizeLocator_spec.1 "https://gateway.pinata.cloud/ipfs/QmX" (by decide)⟩

/-- C9: when initializeProvider observes a chain id different from 1337 it
sets the wrong-network flag and the account and returns early; the stored
contract, provider and connectionError fields are exactly those of the prior
state. -/
theorem initializeProvider_wrongNetwork_frame :
    ∀ (st : AppState) (userAccount : String) (chainId : Nat) (fail : InitFailure)
      (newProv newContr : Nat),
      chainId ≠ 1337 → fail ≠ InitFailure.atGetNetwork →
      initializeProvider st userAccount chainId fail newProv newContr =
        { st with wrongNetwork := true, account := userAccount } := by
  intro st u cid fail p c hc hf
  cases fail with
  | atGetNetwork => exact absurd rfl hf
  | noFailure => simp [initializeProvider, hc]
  | atGetSigner => simp [initializeProvider, hc]

/-- Witness for C9 at a concrete prior state holding a contract and a
provider from a previously correct network. -/
theorem initializeProvider_wrongNetwork_frame_witness :
    (5 : Nat) ≠ 1337 ∧ InitFailure.noFailure ≠ InitFailure.atGetNetwork ∧
    initializeProvider ⟨"0xOld", some 3, some 4, false, ""⟩ "0xNew" 5
        InitFailure.noFailure 8 9 =
      { account := "0xNew", contract := some 3, provider := some 4,
        wrongNetwork := true, connectionError := "" } :=
  ⟨by decide, by decide,
   initializeProvider_wrongNetwork_frame ⟨"0xOld", some 3, some 4, false, ""⟩ "0xNew" 5
     InitFailure.noFailure 8 9 (by decide) (by decide)⟩

/-- C4 counterexample: a read of an address with zero registered files does
not leave the error state empty; getdata sets the no-files message, so the
zero-files outcome is not the error-free empty result the claim states. -/
theorem getdata_zeroFiles_counterexample :
    (getdata ⟨[], "", ""⟩ "0xB" (DisplayCall.returns [])).error ≠ "" := by
  decide

/-- C4 amended: a registry denial surfaces the access-denied message with
the data cleared and the viewing address untouched; a zero-files read yields
empty data together with the advisory no-files message and records the
viewing address; a nonempty read yields the normalized URLs with an empty
error; the denial message differs from the no-files message, so the two
outcomes are never conflated. -/
theorem getdata_distinguishes :
    ∀ (st : DisplayState) (target : String) (items : List String),
      ((getdata st target DisplayCall.throws).error = unauthorizedMsg ∧
       (getdata st target DisplayCall.throws).data = [] ∧
       (getdata st target DisplayCall.throws).currentViewingAddress =
         st.currentViewingAddress) ∧
      ((getdata st target (DisplayCall.returns [])).error = noFilesMsg ∧
       (getdata st target (DisplayCall.returns [])).data = [] ∧
       (getdata st target (DisplayCall.returns [])).currentViewingAddress = target) ∧
      (items ≠ [] →
        (getdata st target (DisplayCall.returns items)).error = "" ∧
        (getdata st target (DisplayCall.returns items)).data =
          items.map normalizeLocator) ∧
      unauthorizedMsg ≠ noFilesMsg := by
  intro st target items
  refine ⟨by simp [getdata], by simp [getdata], fun hne => ?_, by decide⟩
  cases items with
  | nil => exact absurd rfl hne
  | cons a t => simp [getdata]

/-- Witness for C4 at a concrete state, a singleton file list and a target
address. -/
theorem getdata_distinguishes_witness :
    (getdata ⟨[], "", ""⟩ "0xB" DisplayCall.throws).error = unauthorizedMsg ∧
    (getdata ⟨[], "", ""⟩ "0xB" (DisplayCall.returns [])).error = noFilesMsg ∧
    (getdata ⟨[], "", ""⟩ "0xB" (DisplayCall.returns ["QmX"])).error = "" :=
  ⟨(getdata_distinguishes ⟨[], "", ""⟩ "0xB" ["QmX"]).1.1,
   (getdata_distinguishes ⟨[], "", ""⟩ "0xB" ["QmX"]).2.1.1,
   ((getdata_distinguishes ⟨[], "", ""⟩ "0xB" ["QmX"]).2.2.1 (by decide)).1⟩

/-- C1 counterexample: on a wallet that reports a mismatched chain, rejects
the switch with code 4902 and accepts the add, the run succeeds and issues
exactly one add request, yet no switch request occurs after the add: the
switch is never retried, contrary to the claimed switch-then-add-then-switch
sequence. -/
theorem ensureNetwork_no_retry_counterexample :
    (ensureCorrectNetwork ⟨"0x1", some 4902, none⟩).1.countP isAddChainEv = 1 ∧
    ((ensureCorrectNetwork ⟨"0x1", some 4902, none⟩).1.dropWhile
        (fun e => (isAddChainEv e) = false)).countP isSwitchChainEv = 0 ∧
    (ensureCorrectNetwork ⟨"0x1", some 4902, none⟩).2 = EnsureOutcome.ok := by
  decide

/-- C1 amended: on a mismatched chain, ensureCorrectNetwork always attempts
the switch request; an add-network request carrying the required
chain/currency metadata is issued exactly when the wallet rejected the
switch with code 4902; no add request ever occurs before the first switch
request; and no switch request is issued after the add (the switch is not
retried after a successful add). -/
theorem ensureNetwork_amended :
    ∀ w : WalletBehavior, w.chainId ≠ HARDHAT_CHAIN_ID →
      (WalletRequest.switchChain HARDHAT_CHAIN_ID ∈ (ensureCorrectNetwork w).1) ∧
      ((WalletRequest.addChain HARDHAT_NETWORK_CONFIG ∈ (ensureCorrectNetwork w).1) ↔
        w.switchErr = some 4902) ∧
      (((ensureCorrectNetwork w).1.takeWhile
          (fun e => (isSwitchChainEv e) = false)).countP isAddChainEv = 0) ∧
      (((ensureCorrectNetwork w).1.dropWhile
          (fun e => (isAddChainEv e) = false)).countP isSwitchChainEv = 0) := by
  intro w h
  rcases hw : w.switchErr with _ | code
  · simp only [ensureCorrectNetwork, if_neg h, hw]
    decide
  · by_cases hc : code = 4902
    · subst hc
      rcases ha : w.addErr with _ | acode
      · simp only [ensureCorrectNetwork, if_neg h, hw, ha]
        decide
      · simp only [ensureCorrectNetwork, if_neg h, hw, ha]
        decide
    · simp only [ensureCorrectNetwork, if_neg h, hw, if_neg hc]
      constructor
      · decide
      · refine ⟨?_, by decide, by decide⟩
        simp [hc]

/-- Witness for C1 at the concrete wallet behaviour of the counterexample
run (mismatched chain, switch rejected with 4902, add accepted). -/
theorem ensureNetwork_amended_witness :
    ("0x1" : String) ≠ HARDHAT_CHAIN_ID ∧
    (WalletRequest.switchChain HARDHAT_CHAIN_ID ∈
      (ensureCorrectNetwork ⟨"0x1", some 4902, none⟩).1) :=
  ⟨by decide, (ensureNetwork_amended ⟨"0x1", some 4902, none⟩ (by decide)).1⟩

/-! Helper lemmas about traces and the simulated progress interval. -/

/-- Helper: a predicate false on every progress event counts zero
occurrences in a mapped progress block. -/
theorem countP_map_setProgress (P : Ev → Bool) (hP : ∀ p, P (Ev.setProgress p) = false) :
    ∀ l : List Nat, (l.map Ev.setProgress).countP P = 0 := by
  intro l
  induction l with
  | nil => rfl
  | cons a t ih => simp [List.countP_cons, hP, ih]

/-- Helper: progress values of a mapped progress block are the block itself. -/
theorem progressValues_map_setProgress :
    ∀ l : List Nat, progressValues (l.map Ev.setProgress) = l := by
  intro l
  induction l with
  | nil => rfl
  | cons a t ih => simp [progressValues, List.filterMap_cons] at ih ⊢; exact ih

/-- Helper: takeWhile distributes over an append whose left part wholly
satisfies the predicate. -/
theorem takeWhile_append_of_all {α : Type} (P : α → Bool) :
    ∀ (l r : List α), (∀ x ∈ l, P x = true) →
      (l ++ r).takeWhile P = l ++ r.takeWhile P := by
  intro l r h
  induction l with
  | nil => simp
  | cons a t ih =>
      have ha : P a = true := h a (by simp)
      simp only [List.cons_append, List.takeWhile_cons, ha, if_true]
      rw [ih (fun x hx => h x (by simp [hx]))]

/-- Helper: takeWhile keeps a list whose members all satisfy the predicate. -/
theorem takeWhile_all {α : Type} (P : α → Bool) :
    ∀ l : List α, (∀ x ∈ l, P x = true) → l.takeWhile P = l := by
  intro l h
  have := takeWhile_append_of_all P l [] h
  simpa using this

/-- Helper: one interval tick never decreases a progress value at or below 90. -/
theorem tickNext_ge (p : Nat) (hp : p ≤ 90) : p ≤ tickNext p := by
  unfold tickNext
  split <;> omega

/-- Helper: the interval invariant (multiple of 10, at most 90) is preserved. -/
theorem tickNext_inv (p : Nat) (hp : p ≤ 90) (hm : p % 10 = 0) :
    tickNext p ≤ 90 ∧ tickNext p % 10 = 0 := by
  unfold tickNext
  split <;> omega

/-- Helper: every simulated progress value stays at most 90. -/
theorem tickValues_le :
    ∀ (n p : Nat), p ≤ 90 → p % 10 = 0 → ∀ q ∈ tickValues n p, q ≤ 90 := by
  intro n
  induction n with
  | zero => intro p _ _ q hq; simp [tickValues] at hq
  | succ n ih =>
      intro p hp hm q hq
      simp only [tickValues, List.mem_cons] at hq
      rcases hq with rfl | hq
      · exact (tickNext_inv p hp hm).1
      · exact ih (tickNext p) (tickNext_inv p hp hm).1 (tickNext_inv p hp hm).2 q hq

/-- Helper: the simulated progress values are nondecreasing from their
starting point. -/
theorem nondecr_tickValues :
    ∀ (n p : Nat), p ≤ 90 → p % 10 = 0 → nondecr (p :: tickValues n p) = true := by
  intro n
  induction n with
  | zero => intro p _ _; rfl
  | succ n ih =>
      intro p hp hm
      show nondecr (p :: tickNext p :: tickValues n (tickNext p)) = true
      have h1 := tickNext_ge p hp
      have h2 := ih (tickNext p) (tickNext_inv p hp hm).1 (tickNext_inv p hp hm).2
      simp [nondecr, h1, h2]

/-- Helper: appending two final values to a nondecreasing list bounded by
the first of them keeps it nondecreasing. -/
theorem nondecr_append_two :
    ∀ (l : List Nat) (a b : Nat), nondecr l = true → (∀ x ∈ l, x ≤ a) → a ≤ b →
      nondecr (l ++ [a, b]) = true := by
  intro l
  induction l with
  | nil => intro a b _ _ hab; simp [nondecr, hab]
  | cons x t ih =>
      intro a b hl hle hab
      cases t with
      | nil =>
          have hxa : x ≤ a := hle x (by simp)
          simp [nondecr, hxa, hab]
      | cons y t2 =>
          have hxy : x ≤ y ∧ nondecr (y :: t2) = true := by
            simpa [nondecr] using hl
          have hrest := ih a b hxy.2 (fun z hz => hle z (by simp [hz])) hab
          show nondecr (x :: ((y :: t2) ++ [a, b])) = true
          have hshape : (y :: t2) ++ [a, b] = y :: (t2 ++ [a, b]) := rfl
          rw [hshape]
          simp only [nondecr, Bool.and_eq_true, decide_eq_true_eq]
          exact ⟨hxy.1, by simpa [hshape] using hrest⟩

/-- C6: a selected file with a disallowed media type or a byte length over
the 10 MiB ceiling is rejected by validation: the stored file is left
unchanged and a validation error is set; if no file had been selected, a
subsequent submit performs zero network calls (no pinning request and no
registry call). -/
theorem uploadValidation_rejects :
    ∀ (st : SelectionState) (f : SelectedFile) (account : String) (env : UploadEnv),
      (allowedTypes.contains f.type = false ∨ maxSize < f.size) →
      (handleFileSelection st f).file = st.file ∧
      (handleFileSelection st f).error ≠ "" ∧
      (st.file = none →
        networkCalls (handleSubmit (handleFileSelection st f).file account env) = 0) := by
  intro st f account env h
  have hsel : (handleFileSelection st f).file = st.file ∧
      (handleFileSelection st f).error ≠ "" := by
    by_cases ht : allowedTypes.contains f.type = false
    · have htm : f.type ∉ allowedTypes := by simpa using ht
      have he : (handleFileSelection st f).error = invalidTypeMsg := by
        simp [handleFileSelection, htm]
      refine ⟨by simp [handleFileSelection, htm], ?_⟩
      rw [he]; decide
    · have hs : maxSize < f.size := by
        rcases h with h | h
        · exact absurd h ht
        · exact h
      have ht2 : allowedTypes.contains f.type = true := by
        cases hb : allowedTypes.contains f.type
        · exact absurd hb ht
        · rfl
      have htm2 : f.type ∈ allowedTypes := by simpa using ht2
      have he : (handleFileSelection st f).error = tooLargeMsg := by
        simp [handleFileSelection, htm2, hs]
      refine ⟨by simp [handleFileSelection, htm2, hs], ?_⟩
      rw [he]; decide
  refine ⟨hsel.1, hsel.2, fun hf => ?_⟩
  rw [hsel.1, hf]
  rfl

/-- Witness for C6 at a concrete disallowed media type with nothing
previously selected. -/
theorem uploadValidation_rejects_witness :
    (allowedTypes.contains "text/plain" = false ∨ maxSize < 5) ∧
    ((handleFileSelection ⟨none, "", ""⟩ ⟨"text/plain", 5, "a.txt"⟩).file = none ∧
     (handleFileSelection ⟨none, "", ""⟩ ⟨"text/plain", 5, "a.txt"⟩).error ≠ "" ∧
     ((none : Option SelectedFile) = none →
       networkCalls (handleSubmit
         (handleFileSelection ⟨none, "", ""⟩ ⟨"text/plain", 5, "a.txt"⟩).file "0xA"
         ⟨true, true, 0, none, false⟩) = 0)) :=
  ⟨Or.inl (by decide),
   uploadValidation_rejects ⟨none, "", ""⟩ ⟨"text/plain", 5, "a.txt"⟩ "0xA"
     ⟨true, true, 0, none, false⟩ (Or.inl (by decide))⟩

/-- C2 counterexample: in a run where pinning succeeds with hash QmX and the
registration call fails, the registration call did receive the locator, yet
no reported error or success message carries that locator: the caller is
given only the fixed generic failure message, not a
RegistrationFailedAfterPin error with the retained locator. -/
theorem upload_partialFailure_counterexample :
    reportsLocator (handleSubmit (some ⟨"image/png", 5, "a.png"⟩) "0xA"
      ⟨true, true, 0, some "QmX", false⟩) "QmX" = false ∧
    Ev.contractAdd "0xA" (gatewayBase ++ "QmX") ∈
      handleSubmit (some ⟨"image/png", 5, "a.png"⟩) "0xA"
        ⟨true, true, 0, some "QmX", false⟩ ∧
    Ev.setError uploadFailedMsg ∈
      handleSubmit (some ⟨"image/png", 5, "a.png"⟩) "0xA"
        ⟨true, true, 0, some "QmX", false⟩ := by
  decide

/-- C2 amended: when pinning succeeds and registration fails, the run issues
exactly one registration call (no automatic retry) and no un-pin request,
and reports the fixed generic failure message; every error message reported
in the run is one of the two locator-independent constants, so the pinned
locator is not surfaced to the caller. -/
theorem upload_partialFailure_amended :
    ∀ (f : SelectedFile) (account hash : String) (ticks : Nat),
      ((handleSubmit (some f) account ⟨true, true, ticks, some hash, false⟩).countP
          isAddEv = 1) ∧
      ((handleSubmit (some f) account ⟨true, true, ticks, some hash, false⟩).countP
          isUnpinEv = 0) ∧
      (Ev.setError uploadFailedMsg ∈
        handleSubmit (some f) account ⟨true, true, ticks, some hash, false⟩) ∧
      (∀ m, Ev.setError m ∈
          handleSubmit (some f) account ⟨true, true, ticks, some hash, false⟩ →
        m = "" ∨ m = uploadFailedMsg) := by
  intro f account hash ticks
  have hadd := countP_map_setProgress isAddEv (fun p => rfl) (tickValues ticks 0)
  have hunpin := countP_map_setProgress isUnpinEv (fun p => rfl) (tickValues ticks 0)
  refine ⟨?_, ?_, ?_, ?_⟩
  · simp [handleSubmit, List.countP_append, List.countP_cons, isAddEv, hadd]
  · simp [handleSubmit, List.countP_append, List.countP_cons, isUnpinEv, hunpin]
  · simp [handleSubmit]
  · intro m hm
    simp [handleSubmit] at hm
    tauto

/-- Witness for C2 at the concrete counterexample run. -/
theorem upload_partialFailure_amended_witness :
    ((handleSubmit (some ⟨"image/png", 5, "a.png"⟩) "0xA"
        ⟨true, true, 0, some "QmX", false⟩).countP isAddEv = 1) ∧
    ((handleSubmit (some ⟨"image/png", 5, "a.png"⟩) "0xA"
        ⟨true, true, 0, some "QmX", false⟩).countP isUnpinEv = 0) :=
  ⟨(upload_partialFailure_amended ⟨"image/png", 5, "a.png"⟩ "0xA" "QmX" 0).1,
   (upload_partialFailure_amended ⟨"image/png", 5, "a.png"⟩ "0xA" "QmX" 0).2.1⟩

/-- C3 counterexample: a registration run (contract.add) reaches its success
report with no transaction-confirmation wait anywhere in the trace, so
registerFile resolves on submission, not on confirmation. -/
theorem registerFile_noWait_counterexample :
    Ev.setSuccess uploadSuccessMsg ∈
      handleSubmit (some ⟨"image/png", 5, "a.png"⟩) "0xA"
        ⟨true, true, 0, some "QmX", true⟩ ∧
    Ev.txWait ∉
      handleSubmit (some ⟨"image/png", 5, "a.png"⟩) "0xA"
        ⟨true, true, 0, some "QmX", true⟩ := by
  decide

/-- C3 amended: grantAccess (contract.allow) and revokeAccess
(contract.disallow) reach their success path only past the
transaction-confirmation wait, in every environment; registerFile
(contract.add) never performs a confirmation wait in any run. -/
theorem mutatingCalls_confirmation_amended :
    (∀ (hc ha : Bool) (addr : String) (out : TxOutcome),
      successAfterWait (shareAccess hc ha addr out) = true ∧
      successAfterWait (revokeAccess hc ha addr out) = true) ∧
    (∀ (file : Option SelectedFile) (account : String) (env : UploadEnv),
      Ev.txWait ∉ handleSubmit file account env) := by
  constructor
  · intro hc ha addr out
    constructor
    · unfold shareAccess
      split
      · rfl
      · split
        · rfl
        · cases out <;> rfl
    · unfold revokeAccess
      split
      · rfl
      · cases out <;> rfl
  · intro file account env
    cases file with
    | none => simp [handleSubmit]
    | some f =>
        rcases hp : env.pinResult with _ | hash
        · simp [handleSubmit, hp, List.mem_append]
        · cases hcc : env.hasContract <;> cases hha : env.hasAccount <;>
            cases hao : env.addOk <;>
            simp [handleSubmit, hp, hcc, hha, hao, List.mem_append]

/-- Witness for C3 at a concrete confirmed grant and a concrete upload
environment. -/
theorem mutatingCalls_confirmation_amended_witness :
    successAfterWait (shareAccess true true "0xB" TxOutcome.confirmed) = true ∧
    Ev.txWait ∉ handleSubmit (some ⟨"image/png", 5, "a.png"⟩) "0xA"
      ⟨true, true, 0, some "QmX", true⟩ :=
  ⟨(mutatingCalls_confirmation_amended.1 true true "0xB" TxOutcome.confirmed).1,
   mutatingCalls_confirmation_amended.2 (some ⟨"image/png", 5, "a.png"⟩) "0xA"
     ⟨true, true, 0, some "QmX", true⟩⟩

/-! Helper lemmas for computing progress values of traces. -/

/-- Helper: progress values distribute over trace concatenation. -/
theorem progressValues_append :
    ∀ l r : List Ev, progressValues (l ++ r) = progressValues l ++ progressValues r := by
  intro l r
  simp [progressValues, List.filterMap_append]

/-- Helper: an error report contributes no progress value. -/
theorem progressValues_cons_setError (m : String) (t : List Ev) :
    progressValues (Ev.setError m :: t) = progressValues t := by
  simp [progressValues, List.filterMap_cons]

/-- Helper: a success report contributes no progress value. -/
theorem progressValues_cons_setSuccess (m : String) (t : List Ev) :
    progressValues (Ev.setSuccess m :: t) = progressValues t := by
  simp [progressValues, List.filterMap_cons]

/-- Helper: a progress report contributes its value. -/
theorem progressValues_cons_setProgress (p : Nat) (t : List Ev) :
    progressValues (Ev.setProgress p :: t) = p :: progressValues t := by
  simp [progressValues, List.filterMap_cons]

/-- Helper: the pinning request contributes no progress value. -/
theorem progressValues_cons_pinRequest (t : List Ev) :
    progressValues (Ev.pinRequest :: t) = progressValues t := by
  simp [progressValues, List.filterMap_cons]

/-- Helper: the registration call contributes no progress value. -/
theorem progressValues_cons_contractAdd (o l : String) (t : List Ev) :
    progressValues (Ev.contractAdd o l :: t) = progressValues t := by
  simp [progressValues, List.filterMap_cons]

/-- Helper: the empty trace has no progress values. -/
theorem progressValues_nil : progressValues [] = [] := rfl

/-- C7 counterexample: in a run where pinning succeeds and registration
fails, the reported progress sequence is 0, 95, 0 — the failure handler
resets the estimate to 0 after 95, so the reported progress is not
monotonically non-decreasing along every run. -/
theorem uploadProgress_counterexample :
    progressValues (handleSubmit (some ⟨"image/png", 5, "a.png"⟩) "0xA"
      ⟨true, true, 0, some "QmX", false⟩) = [0, 95, 0] ∧
    nondecr (progressValues (handleSubmit (some ⟨"image/png", 5, "a.png"⟩) "0xA"
      ⟨true, true, 0, some "QmX", false⟩)) = false := by
  decide

/-- Helper: the trace segment before the registration call in a pinned run
is exactly the prefix ending at the 95 percent report. -/
theorem beforeAdd_shape (M : List Nat) (rest : List Ev) (o loc : String) :
    List.takeWhile (fun e => !(isAddEv e))
      (Ev.setError "" :: Ev.setSuccess "" :: Ev.setProgress 0 :: Ev.pinRequest ::
        (M.map Ev.setProgress ++ (Ev.setProgress 95 :: Ev.contractAdd o loc :: rest))) =
      Ev.setError "" :: Ev.setSuccess "" :: Ev.setProgress 0 :: Ev.pinRequest ::
        (M.map Ev.setProgress ++ [Ev.setProgress 95]) := by
  show List.takeWhile (fun e => !(isAddEv e))
      ([Ev.setError "", Ev.setSuccess "", Ev.setProgress 0, Ev.pinRequest] ++
        (M.map Ev.setProgress ++ (Ev.setProgress 95 :: Ev.contractAdd o loc :: rest))) = _
  rw [takeWhile_append_of_all _ _ _ (by decide)]
  rw [takeWhile_append_of_all _ _ _ (fun x hx => by
    rcases List.mem_map.1 hx with ⟨a, -, rfl⟩
    rfl)]
  rfl

/-- C7 amended: in every run, each progress value reported before the
registration call is at most 95 (hence strictly below 100 until the
registration step); the value 100 is reported exactly in the runs where
pinning succeeded and the registration call resolved; and on those fully
successful runs the whole reported progress sequence is monotonically
non-decreasing (on failing runs the handler additionally resets the
estimate to 0 at the end, as the counterexample shows). -/
theorem uploadProgress_amended :
    ∀ (file : Option SelectedFile) (account : String) (env : UploadEnv),
      (∀ p ∈ progressValues (beforeAdd (handleSubmit file account env)), p ≤ 95) ∧
      ((100 ∈ progressValues (handleSubmit file account env)) ↔
        (file ≠ none ∧ env.pinResult ≠ none ∧ env.hasContract = true ∧
         env.hasAccount = true ∧ env.addOk = true)) ∧
      ((file ≠ none ∧ env.pinResult ≠ none ∧ env.hasContract = true ∧
        env.hasAccount = true ∧ env.addOk = true) →
        nondecr (progressValues (handleSubmit file account env)) = true) := by
  intro file account env
  have ht90 : ∀ q ∈ tickValues env.ticks 0, q ≤ 90 :=
    tickValues_le env.ticks 0 (by omega) (by omega)
  have htnd : nondecr ((0 : Nat) :: tickValues env.ticks 0) = true :=
    nondecr_tickValues env.ticks 0 (by omega) (by omega)
  cases file with
  | none =>
      refine ⟨?_, ?_, ?_⟩
      · intro p hp2
        simp only [handleSubmit] at hp2
        have hempty : progressValues (beforeAdd [Ev.setError noFileMsg]) = [] := by decide
        rw [hempty] at hp2
        exact absurd hp2 (List.not_mem_nil p)
      · simp [handleSubmit, progressValues]
      · simp
  | some f =>
      rcases hp : env.pinResult with _ | hash
      · have hpv : progressValues (handleSubmit (some f) account env) =
            0 :: (tickValues env.ticks 0 ++ [0]) := by
          simp [handleSubmit, hp, progressValues_append, progressValues_map_setProgress,
            progressValues_cons_setError, progressValues_cons_setSuccess,
            progressValues_cons_setProgress, progressValues_cons_pinRequest,
            progressValues_nil]
        refine ⟨?_, ?_, ?_⟩
        · intro q hq
          have hq2 : q ∈ progressValues (handleSubmit (some f) account env) :=
            ((List.takeWhile_sublist _).filterMap _).subset hq
          rw [hpv] at hq2
          simp only [List.mem_cons, List.mem_append, List.not_mem_nil, or_false] at hq2
          rcases hq2 with rfl | hq2 | rfl
          · omega
          · exact le_trans (ht90 q hq2) (by omega)
          · omega
        · rw [hpv]
          constructor
          · intro h100
            simp only [List.mem_cons, List.mem_append, List.not_mem_nil, or_false] at h100
            rcases h100 with h | h | h
            · exact absurd h (by decide)
            · exact absurd (ht90 100 h) (by decide)
            · exact absurd h (by decide)
          · rintro ⟨-, hpr, -⟩
            exact absurd rfl hpr
        · rintro ⟨-, hpr, -⟩
          exact absurd rfl hpr
      · cases hcc : env.hasContract with
        | false =>
            have hpv : progressValues (handleSubmit (some f) account env) =
                0 :: (tickValues env.ticks 0 ++ [95, 0]) := by
              simp [handleSubmit, hp, hcc, progressValues_append,
                progressValues_map_setProgress, progressValues_cons_setError,
                progressValues_cons_setSuccess, progressValues_cons_setProgress,
                progressValues_cons_pinRequest, progressValues_nil]
            refine ⟨?_, ?_, ?_⟩
            · intro q hq
              have hq2 : q ∈ progressValues (handleSubmit (some f) account env) :=
                ((List.takeWhile_sublist _).filterMap _).subset hq
              rw [hpv] at hq2
              simp only [List.mem_cons, List.mem_append, List.not_mem_nil, or_false] at hq2
              rcases hq2 with rfl | hq2 | rfl | rfl
              · omega
              · exact le_trans (ht90 q hq2) (by omega)
              · omega
              · omega
            · rw [hpv]
              constructor
              · intro h100
                simp only [List.mem_cons, List.mem_append, List.not_mem_nil, or_false] at h100
                rcases h100 with h | h | h | h
                · exact absurd h (by decide)
                · exact absurd (ht90 100 h) (by decide)
                · exact absurd h (by decide)
                · exact absurd h (by decide)
              · rintro ⟨-, -, hc2, -⟩
                exact absurd hc2 (by decide)
            · rintro ⟨-, -, hc2, -⟩
              exact absurd hc2 (by decide)
        | true =>
            cases hha : env.hasAccount with
            | false =>
                have hpv : progressValues (handleSubmit (some f) account env) =
                    0 :: (tickValues env.ticks 0 ++ [95, 0]) := by
                  simp [handleSubmit, hp, hcc, hha, progressValues_append,
                    progressValues_map_setProgress, progressValues_cons_setError,
                    progressValues_cons_setSuccess, progressValues_cons_setProgress,
                    progressValues_cons_pinRequest, progressValues_nil]
                refine ⟨?_, ?_, ?_⟩
                · intro q hq
                  have hq2 : q ∈ progressValues (handleSubmit (some f) account env) :=
                    ((List.takeWhile_sublist _).filterMap _).subset hq
                  rw [hpv] at hq2
                  simp only [List.mem_cons, List.mem_append, List.not_mem_nil,
                    or_false] at hq2
                  rcases hq2 with rfl | hq2 | rfl | rfl
                  · omega
                  · exact le_trans (ht90 q hq2) (by omega)
                  · omega
                  · omega
                · rw [hpv]
                  constructor
                  · intro h100
                    simp only [List.mem_cons, List.mem_append, List.not_mem_nil,
                      or_false] at h100
                    rcases h100 with h | h | h | h
                    · exact absurd h (by decide)
                    · exact absurd (ht90 100 h) (by decide)
                    · exact absurd h (by decide)
                    · exact absurd h (by decide)
                  · rintro ⟨-, -, -, ha2, -⟩
                    exact absurd ha2 (by decide)
                · rintro ⟨-, -, -, ha2, -⟩
                  exact absurd ha2 (by decide)
            | true =>
                have hba : beforeAdd (handleSubmit (some f) account env) =
                    Ev.setError "" :: Ev.setSuccess "" :: Ev.setProgress 0 ::
                      Ev.pinRequest :: ((tickValues env.ticks 0).map Ev.setProgress ++
                        [Ev.setProgress 95]) := by
                  cases hao : env.addOk with
                  | false =>
                      have htr : handleSubmit (some f) account env =
                          Ev.setError "" :: Ev.setSuccess "" :: Ev.setProgress 0 ::
                            Ev.pinRequest :: ((tickValues env.ticks 0).map Ev.setProgress ++
                              (Ev.setProgress 95 ::
                                Ev.contractAdd account (gatewayBase ++ hash) ::
                                [Ev.setError uploadFailedMsg, Ev.setProgress 0])) := by
                        simp [handleSubmit, hp, hcc, hha, hao]
                      unfold beforeAdd
                      rw [htr]
                      exact beforeAdd_shape (tickValues env.ticks 0)
                        [Ev.setError uploadFailedMsg, Ev.setProgress 0] account
                        (gatewayBase ++ hash)
                  | true =>
                      have htr : handleSubmit (some f) account env =
                          Ev.setError "" :: Ev.setSuccess "" :: Ev.setProgress 0 ::
                            Ev.pinRequest :: ((tickValues env.ticks 0).map Ev.setProgress ++
                              (Ev.setProgress 95 ::
                                Ev.contractAdd account (gatewayBase ++ hash) ::
                                [Ev.setProgress 100, Ev.setSuccess uploadSuccessMsg])) := by
                        simp [handleSubmit, hp, hcc, hha, hao]
                      unfold beforeAdd
                      rw [htr]
                      exact beforeAdd_shape (tickValues env.ticks 0)
                        [Ev.setProgress 100, Ev.setSuccess uploadSuccessMsg] account
                        (gatewayBase ++ hash)
                refine ⟨?_, ?_, ?_⟩
                · intro q hq
                  rw [hba] at hq
                  simp only [progressValues_cons_setError, progressValues_cons_setSuccess,
                    progressValues_cons_setProgress, progressValues_cons_pinRequest,
                    progressValues_append, progressValues_map_setProgress,
                    progressValues_nil] at hq
                  simp only [List.mem_cons, List.mem_append, List.not_mem_nil,
                    or_false] at hq
                  rcases hq with rfl | hq | rfl
                  · omega
                  · exact le_trans (ht90 q hq) (by omega)
                  · omega
                · cases hao : env.addOk with
                  | false =>
                      have hpv : progressValues (handleSubmit (some f) account env) =
                          0 :: (tickValues env.ticks 0 ++ [95, 0]) := by
                        simp [handleSubmit, hp, hcc, hha, hao, progressValues_append,
                          progressValues_map_setProgress, progressValues_cons_setError,
                          progressValues_cons_setSuccess, progressValues_cons_setProgress,
                          progressValues_cons_pinRequest, progressValues_cons_contractAdd,
                          progressValues_nil]
                      rw [hpv]
                      constructor
                      · intro h100
                        simp only [List.mem_cons, List.mem_append, List.not_mem_nil,
                          or_false] at h100
                        rcases h100 with h | h | h | h
                        · exact absurd h (by decide)
                        · exact absurd (ht90 100 h) (by decide)
                        · exact absurd h (by decide)
                        · exact absurd h (by decide)
                      · rintro ⟨-, -, -, -, ho2⟩
                        exact absurd ho2 (by decide)
                  | true =>
                      have hpv : progressValues (handleSubmit (some f) account env) =
                          0 :: (tickValues env.ticks 0 ++ [95, 100]) := by
                        simp [handleSubmit, hp, hcc, hha, hao, progressValues_append,
                          progressValues_map_setProgress, progressValues_cons_setError,
                          progressValues_cons_setSuccess, progressValues_cons_setProgress,
                          progressValues_cons_pinRequest, progressValues_cons_contractAdd,
                          progressValues_nil]
                      rw [hpv]
                      simp
                · intro hsucc
                  have hao : env.addOk = true := hsucc.2.2.2.2
                  have hpv : progressValues (handleSubmit (some f) account env) =
                      0 :: (tickValues env.ticks 0 ++ [95, 100]) := by
                    simp [handleSubmit, hp, hcc, hha, hao, progressValues_append,
                      progressValues_map_setProgress, progressValues_cons_setError,
                      progressValues_cons_setSuccess, progressValues_cons_setProgress,
                      progressValues_cons_pinRequest, progressValues_cons_contractAdd,
                      progressValues_nil]
                  rw [hpv]
                  have hbound : ∀ x ∈ (0 : Nat) :: tickValues env.ticks 0, x ≤ 95 := by
                    intro x hx
                    rcases List.mem_cons.1 hx with rfl | hx
                    · omega
                    · exact le_trans (ht90 x hx) (by omega)
                  have hnd := nondecr_append_two ((0 : Nat) :: tickValues env.ticks 0) 95 100
                    htnd hbound (by omega)
                  simpa using hnd

/-- Witness for C7 at a concrete fully successful run with one interval
tick. -/
theorem uploadProgress_amended_witness :
    ((some ⟨"image/png", 5, "a.png"⟩ : Option SelectedFile) ≠ none ∧
     (some "QmX" : Option String) ≠ none ∧ true = true ∧ true = true ∧ true = true) ∧
    nondecr (progressValues (handleSubmit (some ⟨"image/png", 5, "a.png"⟩) "0xA"
      ⟨true, true, 1, some "QmX", true⟩)) = true :=
  ⟨⟨by decide, by decide, rfl, rfl, rfl⟩,
   (uploadProgress_amended (some ⟨"image/png", 5, "a.png"⟩) "0xA"
     ⟨true, true, 1, some "QmX", true⟩).2.2
     ⟨by decide, by decide, rfl, rfl, rfl⟩⟩

/-! The connectWallet coalescing invariant. -/

/-- Helper: a not-started invocation is inactive. -/
theorem activeB_notStarted : activeB ConnPC.notStarted = false := rfl

/-- Helper: an invocation with an outstanding prompt is active. -/
theorem activeB_outstanding : activeB ConnPC.outstanding = true := rfl

/-- Helper: an invocation running its post-response work is active. -/
theorem activeB_working : activeB ConnPC.working = true := rfl

/-- Helper: a finished invocation is inactive. -/
theorem activeB_finished : activeB ConnPC.finished = false := rfl

/-- Helper: a coalesced invocation is inactive. -/
theorem activeB_coalesced : activeB ConnPC.coalesced = false := rfl

/-- Helper: each interleaved step preserves the flag-activity invariant. -/
theorem connStep_preserves {s s2 : ConnSystem} (h : connInv s) (hstep : ConnStep s s2) :
    connInv s2 := by
  cases hstep with
  | left b b2 p p2 q hp =>
      cases hp with
      | coalesce => exact h
      | respond b => exact h
      | launch =>
          simp only [connInv, countActive, activeB_notStarted, activeB_outstanding] at h ⊢
          cases hq : activeB q <;> simp_all
      | finish b =>
          simp only [connInv, countActive, activeB_working, activeB_finished] at h ⊢
          cases hq : activeB q <;> cases b <;> simp_all
  | right b b2 p q q2 hp =>
      cases hp with
      | coalesce => exact h
      | respond b => exact h
      | launch =>
          simp only [connInv, countActive, activeB_notStarted, activeB_outstanding] at h ⊢
          cases hpp : activeB p <;> simp_all
      | finish b =>
          simp only [connInv, countActive, activeB_working, activeB_finished] at h ⊢
          cases hpp : activeB p <;> cases b <;> simp_all

/-- Helper: every reachable state satisfies the flag-activity invariant. -/
theorem connReachable_inv {s : ConnSystem} (h : ConnReachable s) : connInv s := by
  induction h with
  | init => rfl
  | step hr hstep ih => exact connStep_preserves ih hstep

/-- C8: in every reachable interleaving of two connectWallet invocations, at
most one invocation is ever active (in particular the two authorization
prompts are never outstanding simultaneously), and an invocation that starts
while the isConnecting flag is set can only step to the coalesced early
return, issuing no authorization prompt. -/
theorem connectWallet_no_overlap :
    (∀ s : ConnSystem, ConnReachable s → (activeB s.pc0 && activeB s.pc1) = false) ∧
    (∀ (b2 : Bool) (p2 : ConnPC), ProcStep true ConnPC.notStarted b2 p2 →
      b2 = true ∧ p2 = ConnPC.coalesced) := by
  constructor
  · intro s hs
    have hi := connReachable_inv hs
    rcases s with ⟨b, p, q⟩
    simp only [connInv, countActive] at hi
    cases hp : activeB p <;> cases hq : activeB q <;> simp_all
    cases b <;> simp_all
  · intro b2 p2 hstep
    cases hstep
    exact ⟨rfl, rfl⟩

/-- Witness for C8 at the initial state and the concrete coalescing step. -/
theorem connectWallet_no_overlap_witness :
    (activeB connInit.pc0 && activeB connInit.pc1) = false ∧
    (true = true ∧ ConnPC.coalesced = ConnPC.coalesced) :=
  ⟨connectWallet_no_overlap.1 connInit ConnReachable.init,
   connectWallet_no_overlap.2 true ConnPC.coalesced ProcStep.coalesce⟩

end BlockDrive

